import Mathlib

/-
Verification of the ESP-NOW diagnostic receiver (DiagnosticReceiver.cpp).

The C module keeps process-wide state (counters, sequence/timing fields,
flags, the stored transmitter MAC) and exposes three mutating entry points:
`diagnosticReceiverOnPing` (the packet callback), `diagnosticReceiverLoop`
(the periodic tick, which also services the one-character serial commands),
and `diagnosticReceiverReset`.  We embed that state as a record and each
entry point as a pure function from state (plus the inputs the C code reads:
the packet bytes, the current `millis()` value, the pending serial
character) to a new state together with the list of structured events the
function would print.  All `uint32_t` / `unsigned long` arithmetic is
modelled on `Nat` with explicit wrap-around modulo 2^32.
-/

namespace DiagnosticReceiver

/-- 2^32, the modulus of `uint32_t` / 32-bit `unsigned long` arithmetic. -/
def U32 : Nat := 4294967296

/-- C unsigned 32-bit addition. -/
def add32 (a b : Nat) : Nat := (a + b) % U32

/-- C unsigned 32-bit subtraction (wrap-around). -/
def sub32 (a b : Nat) : Nat := (a % U32 + (U32 - b % U32)) % U32

/-- `PING_MAGIC` from DiagnosticReceiver.h: the marker byte 0xAA. -/
def PING_MAGIC : Nat := 0xAA

/-- `SIGNAL_TIMEOUT_MS`: signal loss after 3 seconds of silence. -/
def SIGNAL_TIMEOUT_MS : Nat := 3000

/-- `HEARTBEAT_INTERVAL_MS`: status heartbeat every 60 seconds. -/
def HEARTBEAT_INTERVAL_MS : Nat := 60000

/-- `TEST_PACKET_COUNT`: expected packets from the transmitter. -/
def TEST_PACKET_COUNT : Nat := 10000

/-- `TEST_END_TIMEOUT_MS`: end the test after 10 s without packets. -/
def TEST_END_TIMEOUT_MS : Nat := 10000

/-- The packed `PingMessage` wire record: 1 marker byte followed by two
little-endian `uint32_t` fields, 9 bytes in all. -/
structure PingMessage where
  magic : Nat
  sequenceNumber : Nat
  uptimeMs : Nat
deriving DecidableEq

/-- `sizeof(PingMessage)` under `#pragma pack(1)`. -/
def pingMessageSize : Nat := 9

/-- Little-endian decode of four bytes into a `uint32_t` value. -/
def leU32 (b0 b1 b2 b3 : Nat) : Nat := b0 + b1 * 256 + b2 * 65536 + b3 * 16777216

/-- Decoding a raw frame as a `PingMessage`: the length check
(`len != sizeof(PingMessage)`) together with reading the packed struct
fields at their fixed offsets. -/
def parsePing (data : List Nat) : Option PingMessage :=
  if data.length = pingMessageSize then
    some { magic := data.getD 0 0,
           sequenceNumber := leU32 (data.getD 1 0) (data.getD 2 0) (data.getD 3 0) (data.getD 4 0),
           uptimeMs := leU32 (data.getD 5 0) (data.getD 6 0) (data.getD 7 0) (data.getD 8 0) }
  else none

/-- The signal status the stats printout derives:
`_signalLost ? "LOST" : (_firstPingReceived ? "OK" : "WAITING")`. -/
inductive SignalStatus where
  | waiting
  | ok
  | lost
deriving DecidableEq

/-- The module's static state (the file-scope variables of
DiagnosticReceiver.cpp). -/
structure ReceiverState where
  totalReceived : Nat
  totalMissed : Nat
  signalLossEvents : Nat
  lastSequenceNumber : Nat
  lastPingTime : Nat
  lastHeartbeatTime : Nat
  testStartTime : Nat
  signalLost : Bool
  firstPingReceived : Bool
  testComplete : Bool
  summaryPrinted : Bool
  transmitterMac : List Nat
  transmitterKnown : Bool
deriving DecidableEq

/-- `_signalLost ? LOST : (_firstPingReceived ? OK : WAITING)`. -/
def signalStatus (s : ReceiverState) : SignalStatus :=
  if s.signalLost then SignalStatus.lost
  else if s.firstPingReceived then SignalStatus.ok
  else SignalStatus.waiting

/-- The success-rate computation shared verbatim by
`diagnosticReceiverPrintStats`, the heartbeat block of
`diagnosticReceiverLoop`, and `printFinalSummary`:
`total = received + missed` in `uint32_t`, then
`(received * 100.0f) / total` when `total > 0`, else `0`
(the float arithmetic is modelled as exact rational arithmetic). -/
def successRate (received missed : Nat) : Rat :=
  let total : Nat := add32 received missed
  if 0 < total then ((received : Rat) * 100) / (total : Rat) else 0

/-- The observable (serial-printed) events, as structured data. -/
inductive Event where
  | signalLost (silenceMs lastSeq : Nat)
  | signalRestored (silenceMs missed : Nat)
  | firstPing (mac : List Nat) (seq : Nat)
  | heartbeat (lastSeq : Nat) (progress : Rat) (received missed : Nat) (rate : Rat)
  | statsPrinted (received missed lossEvents : Nat) (rate : Rat)
      (transmitterKnown : Bool) (mac : List Nat) (lastSeq : Nat) (status : SignalStatus)
  | finalSummary (durationMs received missed lossEvents : Nat) (rate : Rat)
      (mac : List Nat) (lastSeq : Nat)
  | countersReset
  | helpPrinted
deriving DecidableEq

/-- `diagnosticReceiverReset`: zero the three counters, touch nothing else. -/
def diagnosticReceiverReset (s : ReceiverState) : ReceiverState :=
  { s with totalReceived := 0, totalMissed := 0, signalLossEvents := 0 }

/-- `diagnosticReceiverGetReceived`. -/
def diagnosticReceiverGetReceived (s : ReceiverState) : Nat := s.totalReceived

/-- `diagnosticReceiverGetMissed`. -/
def diagnosticReceiverGetMissed (s : ReceiverState) : Nat := s.totalMissed

/-- `diagnosticReceiverGetLossEvents`. -/
def diagnosticReceiverGetLossEvents (s : ReceiverState) : Nat := s.signalLossEvents

/-- `diagnosticReceiverPrintStats`: a pure read of the state rendered as a
structured event. -/
def diagnosticReceiverPrintStats (s : ReceiverState) : Event :=
  Event.statsPrinted s.totalReceived s.totalMissed s.signalLossEvents
    (successRate s.totalReceived s.totalMissed)
    s.transmitterKnown s.transmitterMac s.lastSequenceNumber (signalStatus s)

/-- `printFinalSummary`: duration since `_testStartTime` plus the counters
and the shared success-rate formula. -/
def printFinalSummary (s : ReceiverState) (now : Nat) : Event :=
  Event.finalSummary (sub32 now s.testStartTime) s.totalReceived s.totalMissed
    s.signalLossEvents (successRate s.totalReceived s.totalMissed)
    s.transmitterMac s.lastSequenceNumber

/-- `diagnosticReceiverOnPing(mac, data, len)` with `now = millis()`:
validate, record the transmitter MAC first-writer-wins, handle signal
restoration, count sequence gaps, record the ping, handle the first ping,
and check for test completion — in the source's order. -/
def diagnosticReceiverOnPing (s : ReceiverState) (mac data : List Nat) (now : Nat) :
    ReceiverState × List Event :=
  if s.testComplete then (s, [])
  else
    match parsePing data with
    | none => (s, [])
    | some ping =>
      if ping.magic ≠ PING_MAGIC then (s, [])
      else
        let s1 := if s.transmitterKnown then s
                  else { s with transmitterMac := mac, transmitterKnown := true }
        let restoredEvents : List Event :=
          if s1.signalLost then
            [Event.signalRestored (sub32 now s1.lastPingTime)
              (if add32 s1.lastSequenceNumber 1 < ping.sequenceNumber then
                 sub32 ping.sequenceNumber (add32 s1.lastSequenceNumber 1)
               else 0)]
          else []
        let s2 := if s1.signalLost then { s1 with signalLost := false } else s1
        let s3 :=
          if s2.firstPingReceived = true ∧ add32 s2.lastSequenceNumber 1 < ping.sequenceNumber then
            { s2 with
              totalMissed :=
                add32 s2.totalMissed (sub32 (sub32 ping.sequenceNumber s2.lastSequenceNumber) 1) }
          else s2
        let s4 := { s3 with lastSequenceNumber := ping.sequenceNumber,
                            lastPingTime := now,
                            totalReceived := add32 s3.totalReceived 1 }
        let firstEvents : List Event :=
          if s4.firstPingReceived then [] else [Event.firstPing mac ping.sequenceNumber]
        let s5 :=
          if s4.firstPingReceived then s4
          else { s4 with firstPingReceived := true, testStartTime := now,
                         lastHeartbeatTime := now }
        let s6 := if TEST_PACKET_COUNT ≤ ping.sequenceNumber then
                    { s5 with testComplete := true }
                  else s5
        (s6, restoredEvents ++ firstEvents)

/-- The serial-command switch at the end of `diagnosticReceiverLoop`:
`s`/`S` print stats, `r`/`R` reset the counters, `h`/`H`/`?` print help,
anything else is ignored. -/
def handleCommand (s : ReceiverState) (c : Char) : ReceiverState × List Event :=
  if c = 's' ∨ c = 'S' then (s, [diagnosticReceiverPrintStats s])
  else if c = 'r' ∨ c = 'R' then (diagnosticReceiverReset s, [Event.countersReset])
  else if c = 'h' ∨ c = 'H' ∨ c = '?' then (s, [Event.helpPrinted])
  else (s, [])

/-- `diagnosticReceiverLoop()` with `now = millis()` and `serial` the pending
serial character (if any): after-completion summary printing, the test-end
timeout, the signal-loss timeout, the 60-second heartbeat, and the serial
commands — in the source's order. -/
def diagnosticReceiverLoop (s : ReceiverState) (now : Nat) (serial : Option Char) :
    ReceiverState × List Event :=
  if s.testComplete then
    if s.summaryPrinted then (s, [])
    else ({ s with summaryPrinted := true }, [printFinalSummary s now])
  else
    if s.firstPingReceived = true ∧ TEST_END_TIMEOUT_MS ≤ sub32 now s.lastPingTime then
      ({ s with testComplete := true }, [])
    else
      let r1 : ReceiverState × List Event :=
        if s.firstPingReceived = true ∧ s.signalLost = false ∧
            SIGNAL_TIMEOUT_MS ≤ sub32 now s.lastPingTime then
          ({ s with signalLost := true, signalLossEvents := add32 s.signalLossEvents 1 },
           [Event.signalLost (sub32 now s.lastPingTime) s.lastSequenceNumber])
        else (s, [])
      let r2 : ReceiverState × List Event :=
        if r1.1.firstPingReceived = true ∧
            HEARTBEAT_INTERVAL_MS ≤ sub32 now r1.1.lastHeartbeatTime then
          ({ r1.1 with lastHeartbeatTime := now },
           [Event.heartbeat r1.1.lastSequenceNumber
              ((r1.1.lastSequenceNumber : Rat) * 100 / (TEST_PACKET_COUNT : Rat))
              r1.1.totalReceived r1.1.totalMissed
              (successRate r1.1.totalReceived r1.1.totalMissed)])
        else (r1.1, [])
      match serial with
      | none => (r2.1, r1.2 ++ r2.2)
      | some c =>
        let r3 := handleCommand r2.1 c
        (r3.1, r1.2 ++ r2.2 ++ r3.2)

/-- One external stimulus: a received frame, a loop iteration, or a direct
counter reset. -/
inductive Op where
  | ping (mac data : List Nat) (now : Nat)
  | tick (now : Nat) (serial : Option Char)
  | reset
deriving DecidableEq

/-- The state transition of one stimulus (events discarded). -/
def step (s : ReceiverState) (op : Op) : ReceiverState :=
  match op with
  | Op.ping mac data now => (diagnosticReceiverOnPing s mac data now).1
  | Op.tick now serial => (diagnosticReceiverLoop s now serial).1
  | Op.reset => diagnosticReceiverReset s

/-- Run a sequence of stimuli. -/
def run (s : ReceiverState) (ops : List Op) : ReceiverState := ops.foldl step s

/-- Whether an event is a `SignalLost` report. -/
def isLostEvent : Event → Bool
  | Event.signalLost _ _ => true
  | _ => false

/-- Number of `SignalLost` events in an event list. -/
def countSignalLost (evs : List Event) : Nat := (evs.filter isLostEvent).length

theorem add32_eq_of_lt {a b : Nat} (h : a + b < U32) : add32 a b = a + b := by
  unfold add32
  exact Nat.mod_eq_of_lt h

theorem sub32_eq_of_le {a b : Nat} (ha : a < U32) (hb : b ≤ a) : sub32 a b = a - b := by
  unfold sub32 U32 at *
  omega

theorem sub32_self (a : Nat) : sub32 a a = 0 := by
  unfold sub32 U32
  omega

/-- Normal form of `diagnosticReceiverOnPing` on an accepted packet. -/
theorem onPing_accepted (s : ReceiverState) (mac data : List Nat) (now : Nat)
    (ping : PingMessage) (htc : s.testComplete = false) (hp : parsePing data = some ping)
    (hm : ping.magic = PING_MAGIC) :
    diagnosticReceiverOnPing s mac data now =
    ({ totalReceived := add32 s.totalReceived 1,
       totalMissed :=
         if s.firstPingReceived = true ∧ add32 s.lastSequenceNumber 1 < ping.sequenceNumber
         then add32 s.totalMissed (sub32 (sub32 ping.sequenceNumber s.lastSequenceNumber) 1)
         else s.totalMissed,
       signalLossEvents := s.signalLossEvents,
       lastSequenceNumber := ping.sequenceNumber,
       lastPingTime := now,
       lastHeartbeatTime := if s.firstPingReceived then s.lastHeartbeatTime else now,
       testStartTime := if s.firstPingReceived then s.testStartTime else now,
       signalLost := false,
       firstPingReceived := true,
       testComplete := decide (TEST_PACKET_COUNT ≤ ping.sequenceNumber),
       summaryPrinted := s.summaryPrinted,
       transmitterMac := if s.transmitterKnown then s.transmitterMac else mac,
       transmitterKnown := true },
     (if s.signalLost then
        [Event.signalRestored (sub32 now s.lastPingTime)
          (if add32 s.lastSequenceNumber 1 < ping.sequenceNumber then
             sub32 ping.sequenceNumber (add32 s.lastSequenceNumber 1)
           else 0)]
      else [])
     ++ (if s.firstPingReceived then [] else [Event.firstPing mac ping.sequenceNumber])) := by
  unfold diagnosticReceiverOnPing
  rw [hp]
  by_cases hk : s.transmitterKnown <;>
    by_cases hl : s.signalLost <;>
      by_cases hf : s.firstPingReceived <;>
        by_cases hg : add32 s.lastSequenceNumber 1 < ping.sequenceNumber <;>
          by_cases hT : TEST_PACKET_COUNT ≤ ping.sequenceNumber <;>
            simp [htc, hm, hk, hl, hf, hg, hT]

/-- After completion, the loop only prints the final summary once. -/
theorem loop_complete (s : ReceiverState) (now : Nat) (serial : Option Char)
    (h : s.testComplete = true) :
    diagnosticReceiverLoop s now serial =
    if s.summaryPrinted then (s, [])
    else ({ s with summaryPrinted := true }, [printFinalSummary s now]) := by
  unfold diagnosticReceiverLoop
  simp [h]

/-- The test-end timeout branch of the loop: set the flag and return at once. -/
theorem loop_timeout (s : ReceiverState) (now : Nat) (serial : Option Char)
    (h1 : s.testComplete = false) (h2 : s.firstPingReceived = true)
    (h3 : TEST_END_TIMEOUT_MS ≤ sub32 now s.lastPingTime) :
    diagnosticReceiverLoop s now serial = ({ s with testComplete := true }, []) := by
  unfold diagnosticReceiverLoop
  simp [h1, h2, h3]

/-- Normal form of a running-state loop iteration with no serial input. -/
theorem loop_none_normal (s : ReceiverState) (now : Nat) (h1 : s.testComplete = false)
    (h2 : ¬(s.firstPingReceived = true ∧ TEST_END_TIMEOUT_MS ≤ sub32 now s.lastPingTime)) :
    diagnosticReceiverLoop s now none =
    ({ s with
        signalLost :=
          if s.firstPingReceived = true ∧ s.signalLost = false ∧
              SIGNAL_TIMEOUT_MS ≤ sub32 now s.lastPingTime then true else s.signalLost,
        signalLossEvents :=
          if s.firstPingReceived = true ∧ s.signalLost = false ∧
              SIGNAL_TIMEOUT_MS ≤ sub32 now s.lastPingTime then
            add32 s.signalLossEvents 1
          else s.signalLossEvents,
        lastHeartbeatTime :=
          if s.firstPingReceived = true ∧ HEARTBEAT_INTERVAL_MS ≤ sub32 now s.lastHeartbeatTime
          then now else s.lastHeartbeatTime },
     (if s.firstPingReceived = true ∧ s.signalLost = false ∧
          SIGNAL_TIMEOUT_MS ≤ sub32 now s.lastPingTime then
        [Event.signalLost (sub32 now s.lastPingTime) s.lastSequenceNumber]
      else [])
     ++ (if s.firstPingReceived = true ∧ HEARTBEAT_INTERVAL_MS ≤ sub32 now s.lastHeartbeatTime then
           [Event.heartbeat s.lastSequenceNumber
             ((s.lastSequenceNumber : Rat) * 100 / (TEST_PACKET_COUNT : Rat))
             s.totalReceived s.totalMissed (successRate s.totalReceived s.totalMissed)]
         else [])) := by
  obtain ⟨tr, tm, se, ls, lp, lh, ts, sL, fP, tC, sP, tM, tK⟩ := s
  simp only at h1 h2
  subst h1
  simp only [diagnosticReceiverLoop]
  split_ifs <;> simp_all

/-- The loop sets `testComplete` exactly when the test-end timeout fires (or
it was already set). -/
theorem loop_testComplete_eq (s : ReceiverState) (now : Nat) (serial : Option Char) :
    (diagnosticReceiverLoop s now serial).1.testComplete =
      (s.testComplete ||
        (s.firstPingReceived && decide (TEST_END_TIMEOUT_MS ≤ sub32 now s.lastPingTime))) := by
  cases serial with
  | none =>
    simp only [diagnosticReceiverLoop]
    split_ifs <;> simp_all
  | some c =>
    simp only [diagnosticReceiverLoop, handleCommand, diagnosticReceiverReset]
    split_ifs <;> simp_all

/-- The loop never changes `totalMissed` unless the serial command is the
counter reset. -/
theorem loop_totalMissed (s : ReceiverState) (now : Nat) (serial : Option Char)
    (h : serial = none ∨ ∃ c, serial = some c ∧ ¬(c = 'r' ∨ c = 'R')) :
    (diagnosticReceiverLoop s now serial).1.totalMissed = s.totalMissed := by
  rcases h with h | ⟨c, h, hc⟩ <;> subst h
  · simp only [diagnosticReceiverLoop]
    split_ifs <;> simp_all
  · simp only [diagnosticReceiverLoop, handleCommand, diagnosticReceiverReset]
    split_ifs <;> simp_all

/-- While the test is complete, every packet is silently ignored. -/
theorem onPing_complete (s : ReceiverState) (mac data : List Nat) (now : Nat)
    (h : s.testComplete = true) :
    diagnosticReceiverOnPing s mac data now = (s, []) := by
  unfold diagnosticReceiverOnPing
  simp [h]

/-- An undecodable frame is silently ignored. -/
theorem onPing_noParse (s : ReceiverState) (mac data : List Nat) (now : Nat)
    (hp : parsePing data = none) :
    diagnosticReceiverOnPing s mac data now = (s, []) := by
  unfold diagnosticReceiverOnPing
  by_cases htc : s.testComplete = true
  · simp [htc]
  · rw [if_neg htc, hp]

/-- No single stimulus clears the completion flag. -/
theorem step_testComplete (s : ReceiverState) (op : Op) (h : s.testComplete = true) :
    (step s op).testComplete = true := by
  cases op with
  | ping mac data now =>
    rw [step, onPing_complete s mac data now h]
    exact h
  | tick now serial =>
    rw [step, loop_complete s now serial h]
    split_ifs <;> simp [h]
  | reset =>
    simpa [step, diagnosticReceiverReset] using h

/-- No sequence of stimuli clears the completion flag. -/
theorem run_testComplete (s : ReceiverState) (ops : List Op) (h : s.testComplete = true) :
    (run s ops).testComplete = true := by
  induction ops generalizing s with
  | nil => exact h
  | cons op rest ih => exact ih (step s op) (step_testComplete s op h)

/-- A mid-run tracking state used to instantiate the claims. -/
def sampleState : ReceiverState :=
  { totalReceived := 3, totalMissed := 1, signalLossEvents := 1,
    lastSequenceNumber := 4, lastPingTime := 500, lastHeartbeatTime := 100,
    testStartTime := 100, signalLost := false, firstPingReceived := true,
    testComplete := false, summaryPrinted := false,
    transmitterMac := [1, 2, 3, 4, 5, 6], transmitterKnown := true }

/-- `sampleState` after the signal-loss timeout has fired. -/
def lostState : ReceiverState := { sampleState with signalLost := true }

/-- `sampleState` after the test has completed. -/
def completeState : ReceiverState := { sampleState with testComplete := true }

/-- The state right after `diagnosticReceiverInit`. -/
def freshState : ReceiverState :=
  { totalReceived := 0, totalMissed := 0, signalLossEvents := 0,
    lastSequenceNumber := 0, lastPingTime := 0, lastHeartbeatTime := 0,
    testStartTime := 0, signalLost := false, firstPingReceived := false,
    testComplete := false, summaryPrinted := false,
    transmitterMac := [0, 0, 0, 0, 0, 0], transmitterKnown := false }

/-- A well-formed 9-byte ping frame with the given sequence number. -/
def pingFrame (seq : Nat) : List Nat :=
  [0xAA, seq % 256, seq / 256 % 256, seq / 65536 % 256, seq / 16777216 % 256, 0, 0, 0, 0]

/-- Claim C1: for every accepted packet that is not the very first, a
sequence number strictly above `lastSequence + 1` adds exactly
`sequenceNumber - lastSequence - 1` to `totalMissed`; a sequence number
that is equal, lower, or a duplicate leaves `totalMissed` unchanged; and
`totalMissed` never decreases except through an explicit reset (in
particular the loop without the reset command preserves it). -/
theorem C1_gap_counting (s : ReceiverState) (mac data : List Nat) (now : Nat)
    (ping : PingMessage) (htc : s.testComplete = false) (hp : parsePing data = some ping)
    (hm : ping.magic = PING_MAGIC) (hfirst : s.firstPingReceived = true)
    (hseq : ping.sequenceNumber < U32) (hlast : s.lastSequenceNumber + 1 < U32)
    (hmiss : s.totalMissed + ping.sequenceNumber < U32) :
    (s.lastSequenceNumber + 1 < ping.sequenceNumber →
      ((diagnosticReceiverOnPing s mac data now).1.totalMissed
          = s.totalMissed + (ping.sequenceNumber - s.lastSequenceNumber - 1)
        ∧ s.totalMissed ≤ (diagnosticReceiverOnPing s mac data now).1.totalMissed))
    ∧ (¬ s.lastSequenceNumber + 1 < ping.sequenceNumber →
        (diagnosticReceiverOnPing s mac data now).1.totalMissed = s.totalMissed)
    ∧ (∀ now2, (diagnosticReceiverLoop s now2 none).1.totalMissed = s.totalMissed)
    ∧ (∀ now2 c, ¬(c = 'r' ∨ c = 'R') →
        (diagnosticReceiverLoop s now2 (some c)).1.totalMissed = s.totalMissed) := by
  rw [onPing_accepted s mac data now ping htc hp hm]
  have hadd : add32 s.lastSequenceNumber 1 = s.lastSequenceNumber + 1 := add32_eq_of_lt hlast
  refine ⟨?_, ?_, ?_, ?_⟩
  · intro hg
    have h1 : sub32 ping.sequenceNumber s.lastSequenceNumber
        = ping.sequenceNumber - s.lastSequenceNumber := sub32_eq_of_le hseq (by omega)
    have h2 : sub32 (ping.sequenceNumber - s.lastSequenceNumber) 1
        = ping.sequenceNumber - s.lastSequenceNumber - 1 := sub32_eq_of_le (by omega) (by omega)
    have h3 : add32 s.totalMissed (ping.sequenceNumber - s.lastSequenceNumber - 1)
        = s.totalMissed + (ping.sequenceNumber - s.lastSequenceNumber - 1) :=
      add32_eq_of_lt (by omega)
    simp [hadd, hfirst, hg, h1, h2, h3]
  · intro hg
    simp [hadd, hg]
  · intro now2
    exact loop_totalMissed s now2 none (Or.inl rfl)
  · intro now2 c hc
    exact loop_totalMissed s now2 (some c) (Or.inr ⟨c, rfl, hc⟩)

/-- Witness for C1 at `sampleState` (lastSequence 4, totalMissed 1) receiving
sequence number 8: the missed counter becomes 1 + 3 = 4. -/
theorem C1_witness :
    (diagnosticReceiverOnPing sampleState [1, 2, 3, 4, 5, 6] (pingFrame 8) 600).1.totalMissed = 4 := by
  have h := C1_gap_counting sampleState [1, 2, 3, 4, 5, 6] (pingFrame 8) 600
    { magic := 0xAA, sequenceNumber := 8, uptimeMs := 0 }
    rfl (by decide) rfl rfl (by decide) (by decide) (by decide)
  have h2 := (h.1 (by decide)).1
  rw [h2]
  decide

/-- A decoded frame whose marker byte is wrong is silently ignored. -/
theorem onPing_badMagic (s : ReceiverState) (mac data : List Nat) (now : Nat)
    (ping : PingMessage) (hp : parsePing data = some ping) (hm : ping.magic ≠ PING_MAGIC) :
    diagnosticReceiverOnPing s mac data now = (s, []) := by
  unfold diagnosticReceiverOnPing
  by_cases htc : s.testComplete = true
  · simp [htc]
  · rw [if_neg htc, hp]
    exact if_pos hm

/-- Claim C2: a frame of wrong length, or one whose first byte is not the
0xAA marker, is rejected with no state change and no event. -/
theorem C2_malformed_rejected (s : ReceiverState) (mac data : List Nat) (now : Nat)
    (h : data.length ≠ pingMessageSize ∨ data.head? ≠ some PING_MAGIC) :
    diagnosticReceiverOnPing s mac data now = (s, []) := by
  by_cases htc : s.testComplete
  · unfold diagnosticReceiverOnPing
    simp [htc]
  · rcases h with h | h
    · have hp : parsePing data = none := by
        unfold parsePing
        simp [h]
      unfold diagnosticReceiverOnPing
      simp [htc, hp]
    · by_cases hlen : data.length = pingMessageSize
      · have hhead : data.head? = some (data.getD 0 0) := by
          cases data with
          | nil => simp [pingMessageSize] at hlen
          | cons a l => simp [List.getD]
        have hm : ¬ data.getD 0 0 = PING_MAGIC := by
          intro he
          apply h
          rw [hhead, he]
        have hp : parsePing data = some
            { magic := data.getD 0 0,
              sequenceNumber := leU32 (data.getD 1 0) (data.getD 2 0) (data.getD 3 0) (data.getD 4 0),
              uptimeMs := leU32 (data.getD 5 0) (data.getD 6 0) (data.getD 7 0) (data.getD 8 0) } := by
          unfold parsePing
          simp [hlen]
        exact onPing_badMagic s mac data now _ hp hm
      · have hp : parsePing data = none := by
          unfold parsePing
          simp [hlen]
        unfold diagnosticReceiverOnPing
        simp [htc, hp]

/-- Witness for C2: a 9-byte frame with a wrong marker byte is ignored. -/
theorem C2_witness :
    diagnosticReceiverOnPing sampleState [9, 9, 9, 9, 9, 9] [0xAB, 1, 0, 0, 0, 0, 0, 0, 0] 50
      = (sampleState, []) :=
  C2_malformed_rejected sampleState [9, 9, 9, 9, 9, 9] [0xAB, 1, 0, 0, 0, 0, 0, 0, 0] 50
    (Or.inr (by decide))

/-- Claim C3: in every state, `reset` zeroes exactly the three counters;
every other field — last sequence, sender identity, signal state, the
completion flag — keeps its pre-reset value, so a reset followed by the
getters reads the counters as 0 and the rest as before. -/
theorem C3_reset_semantics (s : ReceiverState) :
    diagnosticReceiverReset s
        = { s with totalReceived := 0, totalMissed := 0, signalLossEvents := 0 }
    ∧ diagnosticReceiverGetReceived (diagnosticReceiverReset s) = 0
    ∧ diagnosticReceiverGetMissed (diagnosticReceiverReset s) = 0
    ∧ diagnosticReceiverGetLossEvents (diagnosticReceiverReset s) = 0
    ∧ (diagnosticReceiverReset s).lastSequenceNumber = s.lastSequenceNumber
    ∧ (diagnosticReceiverReset s).lastPingTime = s.lastPingTime
    ∧ (diagnosticReceiverReset s).lastHeartbeatTime = s.lastHeartbeatTime
    ∧ (diagnosticReceiverReset s).testStartTime = s.testStartTime
    ∧ (diagnosticReceiverReset s).signalLost = s.signalLost
    ∧ (diagnosticReceiverReset s).firstPingReceived = s.firstPingReceived
    ∧ signalStatus (diagnosticReceiverReset s) = signalStatus s
    ∧ (diagnosticReceiverReset s).testComplete = s.testComplete
    ∧ (diagnosticReceiverReset s).summaryPrinted = s.summaryPrinted
    ∧ (diagnosticReceiverReset s).transmitterMac = s.transmitterMac
    ∧ (diagnosticReceiverReset s).transmitterKnown = s.transmitterKnown := by
  unfold diagnosticReceiverReset diagnosticReceiverGetReceived diagnosticReceiverGetMissed
    diagnosticReceiverGetLossEvents signalStatus
  simp

/-- Claim C4: once the completion flag is set it stays set under every
sequence of packet, tick, and reset stimuli, and while it is set every
packet is silently ignored — no counter, no state field, no event. -/
theorem C4_complete_absorbing (s : ReceiverState) (ops : List Op) (mac data : List Nat)
    (now : Nat) (h : s.testComplete = true) :
    (run s ops).testComplete = true
    ∧ diagnosticReceiverOnPing s mac data now = (s, []) :=
  ⟨run_testComplete s ops h, onPing_complete s mac data now h⟩

/-- Witness for C4: a completed state stays complete across a reset, a tick
with the reset command, and a further packet; the packet is ignored. -/
theorem C4_witness :
    (run completeState
        [Op.reset, Op.tick 999 (some 'r'), Op.ping [7] (pingFrame 5) 1000]).testComplete = true
    ∧ diagnosticReceiverOnPing completeState [7] (pingFrame 5) 1000 = (completeState, []) :=
  C4_complete_absorbing completeState
    [Op.reset, Op.tick 999 (some 'r'), Op.ping [7] (pingFrame 5) 1000]
    [7] (pingFrame 5) 1000 rfl

/-- Claim C5: the completion flag becomes set in exactly two ways — an
accepted packet whose sequence number reaches `TEST_PACKET_COUNT`, or a loop
iteration at least `TEST_END_TIMEOUT_MS` after the last packet once a first
packet exists; in the latter case completion pre-empts the loss, heartbeat,
and command processing of that iteration.  `reset` never changes the flag. -/
theorem C5_completion_characterization (s : ReceiverState) (mac data : List Nat)
    (now : Nat) (serial : Option Char) :
    ((diagnosticReceiverOnPing s mac data now).1.testComplete = true ↔
      (s.testComplete = true ∨ ∃ ping, parsePing data = some ping
        ∧ ping.magic = PING_MAGIC ∧ TEST_PACKET_COUNT ≤ ping.sequenceNumber))
    ∧ ((diagnosticReceiverLoop s now serial).1.testComplete = true ↔
      (s.testComplete = true ∨
        (s.firstPingReceived = true ∧ TEST_END_TIMEOUT_MS ≤ sub32 now s.lastPingTime)))
    ∧ (diagnosticReceiverReset s).testComplete = s.testComplete
    ∧ (s.testComplete = false → s.firstPingReceived = true →
        TEST_END_TIMEOUT_MS ≤ sub32 now s.lastPingTime →
        diagnosticReceiverLoop s now serial = ({ s with testComplete := true }, [])) := by
  refine ⟨?_, ?_, rfl, fun h1 h2 h3 => loop_timeout s now serial h1 h2 h3⟩
  · by_cases htc : s.testComplete = true
    · rw [onPing_complete s mac data now htc]
      simp [htc]
    · have htc2 : s.testComplete = false := by
        cases h : s.testComplete
        · rfl
        · exact absurd h htc
      cases hp : parsePing data with
      | none =>
        rw [onPing_noParse s mac data now hp, htc2]
        simp [hp]
      | some ping =>
        by_cases hm : ping.magic = PING_MAGIC
        · rw [onPing_accepted s mac data now ping htc2 hp hm]
          simp [hp, htc2, hm]
        · rw [onPing_badMagic s mac data now ping hp hm, htc2]
          simp [hp, hm]
  · rw [loop_testComplete_eq]
    simp

/-- Witness for C5: at `sampleState` (last packet at 500 ms) a loop call at
10500 ms with a pending stats command completes the test and does nothing
else. -/
theorem C5_witness :
    diagnosticReceiverLoop sampleState 10500 (some 's')
      = ({ sampleState with testComplete := true }, []) :=
  (C5_completion_characterization sampleState [] [] 10500 (some 's')).2.2.2
    rfl rfl (by decide)

/-- A loop iteration in which no timer fires and no serial input is pending
changes nothing and emits nothing. -/
theorem loop_noop (s : ReceiverState) (now : Nat) (h1 : s.testComplete = false)
    (h2 : ¬(s.firstPingReceived = true ∧ TEST_END_TIMEOUT_MS ≤ sub32 now s.lastPingTime))
    (h3 : ¬(s.firstPingReceived = true ∧ s.signalLost = false ∧
        SIGNAL_TIMEOUT_MS ≤ sub32 now s.lastPingTime))
    (h4 : ¬(s.firstPingReceived = true ∧ HEARTBEAT_INTERVAL_MS ≤ sub32 now s.lastHeartbeatTime)) :
    diagnosticReceiverLoop s now none = (s, []) := by
  rw [loop_none_normal s now h1 h2]
  simp [h3, h4]

/-- Claim C6: repeating a tick with an unchanged `now` adds no transition
and no event beyond the first qualifying tick; one sustained silence
increments `signalLossEvents` exactly once, on the transition into the lost
state, with exactly one `SignalLost` event, and no tick while already lost
increments it or emits another. -/
theorem C6_tick_idempotent (s : ReceiverState) (now now2 : Nat)
    (htc : s.testComplete = false)
    (hnt : ¬(s.firstPingReceived = true ∧ TEST_END_TIMEOUT_MS ≤ sub32 now s.lastPingTime)) :
    (diagnosticReceiverLoop (diagnosticReceiverLoop s now none).1 now none
        = ((diagnosticReceiverLoop s now none).1, []))
    ∧ (s.firstPingReceived = true → s.signalLost = false →
        SIGNAL_TIMEOUT_MS ≤ sub32 now s.lastPingTime →
        ((diagnosticReceiverLoop s now none).1.signalLossEvents = add32 s.signalLossEvents 1
          ∧ (diagnosticReceiverLoop s now none).1.signalLost = true
          ∧ countSignalLost (diagnosticReceiverLoop s now none).2 = 1))
    ∧ (s.signalLost = true →
        ((diagnosticReceiverLoop s now2 none).1.signalLossEvents = s.signalLossEvents
          ∧ countSignalLost (diagnosticReceiverLoop s now2 none).2 = 0)) := by
  refine ⟨?_, fun hf hsl hsig => ?_, fun hsl => ?_⟩
  · rw [loop_none_normal s now htc hnt]
    by_cases hL : s.firstPingReceived = true ∧ s.signalLost = false ∧
        SIGNAL_TIMEOUT_MS ≤ sub32 now s.lastPingTime <;>
      by_cases hH : s.firstPingReceived = true ∧
          HEARTBEAT_INTERVAL_MS ≤ sub32 now s.lastHeartbeatTime <;>
        (apply loop_noop <;> simp_all [sub32_self, HEARTBEAT_INTERVAL_MS]) <;>
          (split_ifs <;> simp_all [sub32_self])
  · have hL : s.firstPingReceived = true ∧ s.signalLost = false ∧
        SIGNAL_TIMEOUT_MS ≤ sub32 now s.lastPingTime := ⟨hf, hsl, hsig⟩
    rw [loop_none_normal s now htc hnt]
    by_cases hH : s.firstPingReceived = true ∧
        HEARTBEAT_INTERVAL_MS ≤ sub32 now s.lastHeartbeatTime <;>
      simp [hL, hH, countSignalLost, isLostEvent]
  · by_cases ht2 : s.firstPingReceived = true ∧ TEST_END_TIMEOUT_MS ≤ sub32 now2 s.lastPingTime
    · rw [loop_timeout s now2 none htc ht2.1 ht2.2]
      simp [countSignalLost]
    · rw [loop_none_normal s now2 htc ht2]
      have hL2 : ¬(s.firstPingReceived = true ∧ s.signalLost = false ∧
          SIGNAL_TIMEOUT_MS ≤ sub32 now2 s.lastPingTime) := by
        simp [hsl]
      by_cases hH2 : s.firstPingReceived = true ∧
          HEARTBEAT_INTERVAL_MS ≤ sub32 now2 s.lastHeartbeatTime <;>
        simp [hsl, hH2, countSignalLost, isLostEvent]

/-- Witness for C6 at `lostState` (already lost, last packet at 500 ms) and
a tick at 3600 ms: no further loss event and no increment; and at
`sampleState` the first qualifying tick at 3600 ms increments the counter
once and a repeat of it is a no-op. -/
theorem C6_witness :
    (diagnosticReceiverLoop (diagnosticReceiverLoop sampleState 3600 none).1 3600 none
        = ((diagnosticReceiverLoop sampleState 3600 none).1, []))
    ∧ (diagnosticReceiverLoop sampleState 3600 none).1.signalLossEvents = 2
    ∧ countSignalLost (diagnosticReceiverLoop lostState 3600 none).2 = 0 := by
  have h := C6_tick_idempotent sampleState 3600 3600 rfl (by decide)
  have h2 := C6_tick_idempotent lostState 3600 3600 rfl (by decide)
  refine ⟨h.1, ?_, (h2.2.2 rfl).2⟩
  have h3 := (h.2.1 rfl rfl (by decide)).1
  rw [h3]
  decide

/-- Claim C7: an accepted packet while the signal is lost emits exactly one
`SignalRestored` event whose silence is `now - lastPacketTime` and whose gap
is `max(0, sequenceNumber - (lastSequence + 1))` (truncated subtraction),
returns the state to Ok, and adds exactly that gap to `totalMissed`. -/
theorem C7_restoration (s : ReceiverState) (mac data : List Nat) (now : Nat)
    (ping : PingMessage) (htc : s.testComplete = false) (hp : parsePing data = some ping)
    (hm : ping.magic = PING_MAGIC) (hlost : s.signalLost = true)
    (hfirst : s.firstPingReceived = true) (hseq : ping.sequenceNumber < U32)
    (hlast : s.lastSequenceNumber + 1 < U32)
    (hmiss : s.totalMissed + ping.sequenceNumber < U32) :
    (diagnosticReceiverOnPing s mac data now).2
        = [Event.signalRestored (sub32 now s.lastPingTime)
            (ping.sequenceNumber - (s.lastSequenceNumber + 1))]
    ∧ (diagnosticReceiverOnPing s mac data now).1.totalMissed
        = s.totalMissed + (ping.sequenceNumber - (s.lastSequenceNumber + 1))
    ∧ (diagnosticReceiverOnPing s mac data now).1.signalLost = false
    ∧ signalStatus (diagnosticReceiverOnPing s mac data now).1 = SignalStatus.ok := by
  rw [onPing_accepted s mac data now ping htc hp hm]
  have hadd : add32 s.lastSequenceNumber 1 = s.lastSequenceNumber + 1 := add32_eq_of_lt hlast
  by_cases hg : add32 s.lastSequenceNumber 1 < ping.sequenceNumber
  · have hg2 : s.lastSequenceNumber + 1 < ping.sequenceNumber := by rwa [hadd] at hg
    have h1 : sub32 ping.sequenceNumber (s.lastSequenceNumber + 1)
        = ping.sequenceNumber - (s.lastSequenceNumber + 1) :=
      sub32_eq_of_le hseq (by omega)
    have h2 : sub32 ping.sequenceNumber s.lastSequenceNumber
        = ping.sequenceNumber - s.lastSequenceNumber := sub32_eq_of_le hseq (by omega)
    have h3 : sub32 (ping.sequenceNumber - s.lastSequenceNumber) 1
        = ping.sequenceNumber - s.lastSequenceNumber - 1 :=
      sub32_eq_of_le (by omega) (by omega)
    have h4 : add32 s.totalMissed (ping.sequenceNumber - s.lastSequenceNumber - 1)
        = s.totalMissed + (ping.sequenceNumber - s.lastSequenceNumber - 1) :=
      add32_eq_of_lt (by omega)
    have h5 : ping.sequenceNumber - s.lastSequenceNumber - 1
        = ping.sequenceNumber - (s.lastSequenceNumber + 1) := by omega
    have h6 : add32 s.totalMissed (ping.sequenceNumber - (s.lastSequenceNumber + 1))
        = s.totalMissed + (ping.sequenceNumber - (s.lastSequenceNumber + 1)) :=
      add32_eq_of_lt (by omega)
    simp [signalStatus, hlost, hfirst, hg, hg2, hadd, h1, h2, h3, h5, h6]
  · have hg2 : ping.sequenceNumber - (s.lastSequenceNumber + 1) = 0 := by
      rw [hadd] at hg
      omega
    simp [signalStatus, hlost, hfirst, hg, hg2]

/-- Witness for C7: at `lostState` (last sequence 4, last packet at 500 ms,
missed 1) a packet with sequence 10 at 3300 ms emits
`SignalRestored{silenceMs 2800, gap 5}` and raises `totalMissed` to 6. -/
theorem C7_witness :
    (diagnosticReceiverOnPing lostState [1, 2, 3, 4, 5, 6] (pingFrame 10) 3300).2
        = [Event.signalRestored 2800 5]
    ∧ (diagnosticReceiverOnPing lostState [1, 2, 3, 4, 5, 6] (pingFrame 10) 3300).1.totalMissed
        = 6 := by
  have h := C7_restoration lostState [1, 2, 3, 4, 5, 6] (pingFrame 10) 3300
    { magic := 0xAA, sequenceNumber := 10, uptimeMs := 0 }
    rfl (by decide) rfl rfl rfl (by decide) (by decide) (by decide)
  refine ⟨?_, ?_⟩
  · rw [h.1]
    decide
  · rw [h.2.1]
    decide

/-- Claim C8: the reported success rate — shared by the statistics printout,
the heartbeat, and the final summary — equals
`received * 100 / (received + missed)` when the denominator is nonzero,
equals 0 when it is zero, and always lies in `[0, 100]`. -/
theorem C8_success_rate (r m : Nat) (s : ReceiverState) (now : Nat) (h : r + m < U32) :
    (r + m = 0 → successRate r m = 0)
    ∧ (0 < r + m → successRate r m = ((r : Rat) * 100) / (((r + m : Nat) : Rat)))
    ∧ 0 ≤ successRate r m ∧ successRate r m ≤ 100
    ∧ diagnosticReceiverPrintStats s
        = Event.statsPrinted s.totalReceived s.totalMissed s.signalLossEvents
            (successRate s.totalReceived s.totalMissed) s.transmitterKnown
            s.transmitterMac s.lastSequenceNumber (signalStatus s)
    ∧ printFinalSummary s now
        = Event.finalSummary (sub32 now s.testStartTime) s.totalReceived s.totalMissed
            s.signalLossEvents (successRate s.totalReceived s.totalMissed)
            s.transmitterMac s.lastSequenceNumber
    ∧ (s.testComplete = false →
        ¬(s.firstPingReceived = true ∧ TEST_END_TIMEOUT_MS ≤ sub32 now s.lastPingTime) →
        s.firstPingReceived = true →
        HEARTBEAT_INTERVAL_MS ≤ sub32 now s.lastHeartbeatTime →
        Event.heartbeat s.lastSequenceNumber
            ((s.lastSequenceNumber : Rat) * 100 / (TEST_PACKET_COUNT : Rat))
            s.totalReceived s.totalMissed (successRate s.totalReceived s.totalMissed)
          ∈ (diagnosticReceiverLoop s now none).2) := by
  have htot : add32 r m = r + m := add32_eq_of_lt h
  refine ⟨fun h0 => ?_, fun h0 => ?_, ?_, ?_, rfl, rfl, fun h1 h2 hf hhb => ?_⟩
  · unfold successRate
    rw [htot]
    simp [h0]
  · unfold successRate
    rw [htot, if_pos h0]
  · unfold successRate
    rw [htot]
    by_cases h0 : 0 < r + m
    · rw [if_pos h0]
      positivity
    · rw [if_neg h0]
  · unfold successRate
    rw [htot]
    by_cases h0 : 0 < r + m
    · rw [if_pos h0]
      rw [div_le_iff₀ (by exact_mod_cast h0)]
      push_cast
      have hm2 : (0 : Rat) ≤ (m : Rat) := by positivity
      linarith
    · rw [if_neg h0]
      norm_num
  · rw [loop_none_normal s now h1 h2]
    have hH : s.firstPingReceived = true ∧
        HEARTBEAT_INTERVAL_MS ≤ sub32 now s.lastHeartbeatTime := ⟨hf, hhb⟩
    by_cases hL : s.firstPingReceived = true ∧ s.signalLost = false ∧
        SIGNAL_TIMEOUT_MS ≤ sub32 now s.lastPingTime <;>
      simp [hL, hH]

/-- Witness for C8 at three received, one missed: the rate is 300/4 = 75,
inside [0, 100]. -/
theorem C8_witness :
    successRate 3 1 = ((3 : Rat) * 100) / (((4 : Nat) : Rat))
    ∧ 0 ≤ successRate 3 1 ∧ successRate 3 1 ≤ 100 := by
  have h := C8_success_rate 3 1 sampleState 60200 (by decide)
  exact ⟨h.2.1 (by decide), h.2.2.1, h.2.2.2.1⟩

/-- Claim C9: the transmitter identifier is recorded exactly once, on the
first accepted packet; once known it never changes, whatever later packets
(from any sender) arrive, and `reset` never clears it. -/
theorem C9_sender_identity (s : ReceiverState) (mac data : List Nat) (now : Nat) :
    (s.transmitterKnown = true →
      ((diagnosticReceiverOnPing s mac data now).1.transmitterMac = s.transmitterMac
        ∧ (diagnosticReceiverOnPing s mac data now).1.transmitterKnown = true))
    ∧ (s.transmitterKnown = false → s.testComplete = false →
        ∀ ping, parsePing data = some ping → ping.magic = PING_MAGIC →
          ((diagnosticReceiverOnPing s mac data now).1.transmitterMac = mac
            ∧ (diagnosticReceiverOnPing s mac data now).1.transmitterKnown = true))
    ∧ (diagnosticReceiverReset s).transmitterMac = s.transmitterMac
    ∧ (diagnosticReceiverReset s).transmitterKnown = s.transmitterKnown := by
  refine ⟨fun hk => ?_, fun hk htc ping hp hm => ?_, rfl, rfl⟩
  · by_cases htc : s.testComplete = true
    · rw [onPing_complete s mac data now htc]
      exact ⟨rfl, hk⟩
    · have htc2 : s.testComplete = false := by
        cases h : s.testComplete
        · rfl
        · exact absurd h htc
      cases hp : parsePing data with
      | none =>
        rw [onPing_noParse s mac data now hp]
        exact ⟨rfl, hk⟩
      | some ping =>
        by_cases hm : ping.magic = PING_MAGIC
        · rw [onPing_accepted s mac data now ping htc2 hp hm]
          simp [hk]
        · rw [onPing_badMagic s mac data now ping hp hm]
          exact ⟨rfl, hk⟩
  · rw [onPing_accepted s mac data now ping htc hp hm]
    simp [hk]

/-- Witness for C9: a later packet from a different sender leaves the
stored identifier untouched, while a fresh state records the first
sender's identifier. -/
theorem C9_witness :
    (diagnosticReceiverOnPing sampleState [9, 9, 9, 9, 9, 9] (pingFrame 6) 700).1.transmitterMac
        = sampleState.transmitterMac
    ∧ (diagnosticReceiverOnPing freshState [7, 7, 7, 7, 7, 7] (pingFrame 1) 100).1.transmitterMac
        = [7, 7, 7, 7, 7, 7] := by
  have h1 := (C9_sender_identity sampleState [9, 9, 9, 9, 9, 9] (pingFrame 6) 700).1 rfl
  have h2 := (C9_sender_identity freshState [7, 7, 7, 7, 7, 7] (pingFrame 1) 100).2.1 rfl rfl
    { magic := 0xAA, sequenceNumber := 1, uptimeMs := 0 } (by decide) rfl
  exact ⟨h1.1, h2.1⟩

/-- Claim C10: once the completion flag is set the loop returns before the
command branch — the result is the same whatever serial command is pending,
the only state change is marking the one-time final summary as printed on
the first such call, and later calls do nothing at all. -/
theorem C10_commands_dead_after_complete (s : ReceiverState) (now : Nat)
    (serial serial2 : Option Char) (h : s.testComplete = true) :
    diagnosticReceiverLoop s now serial = diagnosticReceiverLoop s now serial2
    ∧ (diagnosticReceiverLoop s now serial).1 = { s with summaryPrinted := true }
    ∧ (s.summaryPrinted = true → diagnosticReceiverLoop s now serial = (s, []))
    ∧ (s.summaryPrinted = false →
        diagnosticReceiverLoop s now serial
          = ({ s with summaryPrinted := true }, [printFinalSummary s now])) := by
  obtain ⟨tr, tm, se, ls, lp, lh, ts, sL, fP, tC, sP, tM, tK⟩ := s
  simp only at h
  subst h
  rw [loop_complete _ now serial rfl, loop_complete _ now serial2 rfl]
  cases sP <;> simp

/-- Witness for C10: with the completed (summary not yet printed) state, a
loop call with a pending reset command only prints the summary and marks it
printed — the reset command has no effect. -/
theorem C10_witness :
    diagnosticReceiverLoop completeState 2000 (some 'r')
      = ({ completeState with summaryPrinted := true },
         [printFinalSummary completeState 2000]) :=
  (C10_commands_dead_after_complete completeState 2000 (some 'r') none rfl).2.2.2 rfl

end DiagnosticReceiver
